import Mathlib

/-!
Verification of the LPC spritesheet catalog pipeline.

This file gives a shallow embedding of the two catalog-building scripts:

* `gen.py` — schema creation (`init_db`), path classification (`find_layer`
  and the inline animation search in `scan_assets`), and the two-transaction
  catalog writer (`scan_assets`).
* `gen_characters.py` — the JSON sheet-definition normalizer
  (`parse_json_definitions`) .

Python strings are modeled as Lean `String`s restricted to the ASCII
fragment actually used by the scripts (`str.lower` is modeled as ASCII
lowering).  Parsed JSON trees are modeled by the `Json` inductive; Python
dicts are association lists in insertion order.  Fallible Python code
(statements that can raise `sqlite3.OperationalError`, `KeyError` or
`TypeError`) is modeled in `Except String`.
-/

/-! ## Python string primitives -/

/-- ASCII lowering of one character (the fragment of `str.lower` used here). -/
def lowerChar (c : Char) : Char :=
  if 'A' ≤ c ∧ c ≤ 'Z' then Char.ofNat (c.toNat + 32) else c

/-- `s.lower()` on ASCII strings. -/
def asciiLower (s : String) : String := String.mk (s.data.map lowerChar)

/-- Character-list version of "is a prefix of". -/
def chPre : List Char → List Char → Bool
  | [], _ => true
  | _ :: _, [] => false
  | a :: as, b :: bs => a == b && chPre as bs

/-- Character-list version of "occurs as a contiguous substring" —
Python's `needle in hay`. -/
def chInfixOf (needle : List Char) : List Char → Bool
  | [] => chPre needle []
  | c :: rest => chPre needle (c :: rest) || chInfixOf needle rest

/-- Python `needle in hay` on strings. -/
def strContains (hay needle : String) : Bool := chInfixOf needle.data hay.data

/-- Python `s.startswith(p)`. -/
def strStarts (s p : String) : Bool := chPre p.data s.data

/-- Python `s.endswith(p)`. -/
def strEnds (s p : String) : Bool := chPre p.data.reverse s.data.reverse

/-- `os.path.join(a, b)` on POSIX: `b` absolute wins; a trailing slash or an
empty `a` is not doubled. -/
def pathJoin (a b : String) : String :=
  if strStarts b "/" then b
  else if a = "" ∨ strEnds a "/" then a ++ b
  else a ++ "/" ++ b

/-- `.replace("\\", "/")`: the argument is a single-character pattern, so it
is a character map. -/
def normSlash (s : String) : String :=
  String.mk (s.data.map (fun c => if c = '\\' then '/' else c))

/-- Index of the last `'.'` of a character list, if any. -/
def lastDotIdx (cs : List Char) : Option Nat :=
  if cs.contains '.' then some (cs.length - 1 - cs.reverse.indexOf '.') else none

/-- `os.path.splitext(basename)[0]`: split at the last dot, except when all
characters before it are dots (hidden-file rule). -/
def splitextStem (s : String) : String :=
  match lastDotIdx s.data with
  | none => s
  | some k => if (s.data.take k).all (· = '.') then s else String.mk (s.data.take k)

/-- The basename of a slash-separated relative path (the `file` component
of the `os.walk` pair from which `rel_path` was built). -/
def lastComponent (s : String) : String :=
  String.mk (s.data.foldl (fun acc c => if c = '/' then [] else acc ++ [c]) [])

/-! ## JSON values and Python dict operations -/

/-- Parsed JSON trees (the output of `json.load`).  Objects are association
lists in insertion order; `json.load` produces unique keys. -/
inductive Json where
  | null : Json
  | bool (b : Bool) : Json
  | num (n : Int) : Json
  | str (s : String) : Json
  | arr (xs : List Json) : Json
  | obj (kvs : List (String × Json)) : Json

/-- Python truthiness of a JSON value. -/
def pyTruthy : Json → Bool
  | Json.null => false
  | Json.bool b => b
  | Json.num n => n != 0
  | Json.str s => s != ""
  | Json.arr xs => !xs.isEmpty
  | Json.obj kvs => !kvs.isEmpty

/-- `d.get(k)` — `None` (here `Json.null`) when the key is absent. -/
def pyGet (kvs : List (String × Json)) (k : String) : Json :=
  match kvs.find? (fun p => p.1 == k) with
  | some p => p.2
  | none => Json.null

/-- `d.get(k, dflt)`. -/
def pyGetD (kvs : List (String × Json)) (k : String) (dflt : Json) : Json :=
  match kvs.find? (fun p => p.1 == k) with
  | some p => p.2
  | none => dflt

def Json.isStr : Json → Bool
  | Json.str _ => true
  | _ => false

def Json.isObj : Json → Bool
  | Json.obj _ => true
  | _ => false

def Json.asStr : Json → String
  | Json.str s => s
  | _ => ""

def Json.asObj : Json → List (String × Json)
  | Json.obj kvs => kvs
  | _ => []

/-! ## `gen_characters.py`: the definition normalizer -/

/-- One flat record produced by `parse_json_definitions` (the dict appended
to `entries`).  `type_name` and `z_index` are stored as the raw JSON values
the source stores. -/
structure Entry where
  type_name : Json
  gender : String
  variant : String
  z_index : Json
  path : String

/-- The value iterated by `for variant in variants or ["default"]`:
`variants` when truthy, else the one-element default list. -/
def effVariantsJ (kvs : List (String × Json)) : Json :=
  let vj := pyGetD kvs "variants" (Json.arr [])
  if pyTruthy vj then vj else Json.arr [Json.str "default"]

/-- Python iteration over the variants value: lists yield their elements,
strings yield their characters, anything else raises `TypeError`. -/
def pyIterVariants : Json → Except String (List Json)
  | Json.arr xs => Except.ok xs
  | Json.str s => Except.ok (s.data.map (fun c => Json.str (String.mk [c])))
  | _ => Except.error "TypeError: object is not iterable"

/-- Build one record for one variant; `os.path.join(path, variant)` raises
`TypeError` when the variant is not a string. -/
def mkEntry (tn : Json) (gender : String) (z : Json) (p : String) :
    Json → Except String Entry
  | Json.str v =>
      Except.ok ⟨tn, gender, v, z, normSlash (pathJoin p v)⟩
  | _ => Except.error "TypeError: join on non-string"

/-- The inner `for variant in ...` loop of `parse_json_definitions`. -/
def variantLoop (tn : Json) (gender : String) (z : Json) (p : String) :
    List Json → Except String (List Entry)
  | [] => Except.ok []
  | v :: rest => do
      let e ← mkEntry tn gender z p v
      let es ← variantLoop tn gender z p rest
      Except.ok (e :: es)

/-- The `for gender, path in val.items()` loop: skips the `zPos` key and
non-string paths, then iterates the effective variants. -/
def genderLoop (tn : Json) (effV : Json) (z : Json) :
    List (String × Json) → Except String (List Entry)
  | [] => Except.ok []
  | (gender, pj) :: rest =>
      if gender == "zPos" || !pj.isStr then genderLoop tn effV z rest
      else do
        let vs ← pyIterVariants effV
        let es ← variantLoop tn gender z pj.asStr vs
        let rs ← genderLoop tn effV z rest
        Except.ok (es ++ rs)

/-- The `for key, val in data.items()` loop: acts on `layer_*` keys whose
value is a mapping, reading `zPos` (default 0) from it. -/
def layerLoop (tn : Json) (effV : Json) :
    List (String × Json) → Except String (List Entry)
  | [] => Except.ok []
  | (key, val) :: rest =>
      if strStarts key "layer_" && val.isObj then do
        let es ← genderLoop tn effV (pyGetD val.asObj "zPos" (Json.num 0)) val.asObj
        let rs ← layerLoop tn effV rest
        Except.ok (es ++ rs)
      else layerLoop tn effV rest

/-- `parse_json_definitions`, restricted to a single parsed definition tree:
trees with a falsy or absent `type_name` contribute no records. -/
def parseDefFile (kvs : List (String × Json)) : Except String (List Entry) :=
  let tn := pyGet kvs "type_name"
  if pyTruthy tn then layerLoop tn (effVariantsJ kvs) kvs else Except.ok []

/-- `parse_json_definitions` over a directory listing: `none` stands for a
file whose `json.load` failed (logged and skipped); record lists are
concatenated in file order. -/
def parse_json_definitions :
    List (Option (List (String × Json))) → Except String (List Entry)
  | [] => Except.ok []
  | none :: rest => parse_json_definitions rest
  | some kvs :: rest => do
      let es ← parseDefFile kvs
      let rs ← parse_json_definitions rest
      Except.ok (es ++ rs)

/-! Spec-side rendering of §4.3 of the specification, used to state the
normalizer claim: the effective variant list as the spec words it, and the
flat enumeration "one record per (layer key, gender key, variant) triple". -/

/-- Extract the string payloads of a list of JSON values, if all are strings. -/
def strListOpt : List Json → Option (List String)
  | [] => some []
  | Json.str s :: rest => (strListOpt rest).map (fun vs => s :: vs)
  | _ => none

/-- Extract a list of strings from a JSON value, if it is one. -/
def jsonStrList : Json → Option (List String)
  | Json.arr xs => strListOpt xs
  | _ => none

/-- Modelled from the spec: "`variants` (list of strings, default
`[\x22default\x22]` when absent or empty)" — `none` when the variants value is
present, truthy and not a list of strings. -/
def specEffVariants (kvs : List (String × Json)) : Option (List String) :=
  let vj := pyGetD kvs "variants" (Json.arr [])
  if pyTruthy vj then jsonStrList vj else some ["default"]

/-- Modelled from the spec: "one flat record per `(layer_key, gender,
variant)` triple: `\x7btype_name, gender, variant, z_index, path =
join(gender_path, variant)\x7d`", enumerating `layer_*` keys with mapping
values, their non-`zPos` string-valued keys, and the variant list. -/
def specRecords (kvs : List (String × Json)) (vs : List String) : List Entry :=
  (kvs.filter (fun p => strStarts p.1 "layer_" && p.2.isObj)).flatMap (fun p =>
    ((p.2.asObj).filter (fun g => !(g.1 == "zPos" || !g.2.isStr))).flatMap (fun g =>
      vs.map (fun v =>
        ⟨pyGet kvs "type_name", g.1, v,
          pyGetD p.2.asObj "zPos" (Json.num 0),
          normSlash (pathJoin g.2.asStr v)⟩)))

/-- The hat definition tree of spec example scenario 2. -/
def hatDef : List (String × Json) :=
  [("type_name", Json.str "hat"),
   ("variants", Json.arr [Json.str "red", Json.str "blue"]),
   ("layer_hat", Json.obj
      [("zPos", Json.num 5),
       ("male", Json.str "hats/male"),
       ("female", Json.str "hats/female")])]

/-! ## `gen.py`: schema, vocabularies, classifier -/

/-- The fixed animation vocabulary `ANIMATIONS`, in Python dict insertion
order, as `(name, (direction_count, frame_count))`. -/
def ANIMATIONS : List (String × Int × Int) :=
  [("walk", 4, 9), ("thrust", 4, 8), ("shoot", 4, 13), ("cast", 4, 7),
   ("slash", 4, 6), ("spellcast", 4, 7), ("hurt", 1, 6)]

/-- The fixed ordered layer vocabulary `LAYER_ORDER`. -/
def LAYER_ORDER : List String :=
  ["body", "feet", "legs", "torso", "head", "hair", "helmet", "cloak",
   "weapon", "shield"]

/-- Row of the `animations` table. -/
structure AnimRow where
  id : Nat
  name : String
  direction_count : Int
  frame_count : Int
deriving DecidableEq

/-- Row of the `layers` table ( `draw_order` is the column added by the
`ALTER TABLE` statement; `none` is SQL NULL). -/
structure LayerRow where
  id : Nat
  name : String
  render_order : Int
  draw_order : Option Int
deriving DecidableEq

/-- Row of the `assets` table. -/
structure AssetRow where
  id : Nat
  name : String
  layer_id : Nat
  gender : String
  file_path : String
deriving DecidableEq

/-- Row of the `asset_animations` table. -/
structure LinkRow where
  asset_id : Nat
  animation_id : Nat
  frame_path_template : String
deriving DecidableEq

/-- The catalog database.  `tablesExist` records whether the
`CREATE TABLE IF NOT EXISTS` statements have run; `drawOrderColExists`
whether the `ALTER TABLE layers ADD COLUMN draw_order` statement has run
(SQLite has no "if not exists" for columns).  Rows are listed in rowid
order. -/
structure DB where
  tablesExist : Bool
  drawOrderColExists : Bool
  animations : List AnimRow
  layers : List LayerRow
  assets : List AssetRow
  asset_animations : List LinkRow
deriving DecidableEq

/-- A fresh database file. -/
def emptyDB : DB := ⟨false, false, [], [], [], []⟩

/-- The `CASE name ... END` expression of the `UPDATE layers SET
draw_order` statement. -/
def drawOrderCase (n : String) : Int :=
  if n = "body" then 1 else if n = "torso" then 2 else if n = "legs" then 3
  else if n = "feet" then 4 else if n = "hair" then 5 else if n = "head" then 6
  else if n = "eyes" then 7 else if n = "accessory" then 8 else 99

/-- `cur.executescript(SCHEMA)`: the seven idempotent `CREATE TABLE IF NOT
EXISTS` statements, then the unconditional `ALTER TABLE layers ADD COLUMN
draw_order INTEGER` — which raises `sqlite3.OperationalError: duplicate
column name` when the column already exists — then the `UPDATE layers SET
draw_order = CASE ... END` over every row currently in `layers`. -/
def execSchema (db : DB) : Except String DB :=
  let db1 : DB := { db with tablesExist := true }
  if db1.drawOrderColExists then
    Except.error "duplicate column name: draw_order"
  else
    Except.ok { db1 with
      drawOrderColExists := true,
      layers := db1.layers.map (fun r => { r with draw_order := some (drawOrderCase r.name) }) }

/-- Largest existing id of a table (0 when empty): a SQLite
`INTEGER PRIMARY KEY` with no explicit value gets `max(rowid) + 1`. -/
def maxId {α : Type} (f : α → Nat) (l : List α) : Nat :=
  l.foldl (fun m r => max m (f r)) 0

/-- `INSERT OR IGNORE INTO animations (name, direction_count, frame_count)`:
`name` is UNIQUE, so the insert is a no-op when the name is present. -/
def insertAnimIgnore (db : DB) (name : String) (dirs frames : Int) : DB :=
  if db.animations.any (fun r => r.name == name) then db
  else { db with animations :=
    db.animations ++ [⟨maxId AnimRow.id db.animations + 1, name, dirs, frames⟩] }

/-- `INSERT OR IGNORE INTO layers (name, render_order)`: `name` is UNIQUE;
the `draw_order` column is not supplied, so it defaults to NULL. -/
def insertLayerIgnore (db : DB) (name : String) (ord : Int) : DB :=
  if db.layers.any (fun r => r.name == name) then db
  else { db with layers :=
    db.layers ++ [⟨maxId LayerRow.id db.layers + 1, name, ord, none⟩] }

/-- `init_db`: run the schema script, then seed the animation vocabulary
and the layer vocabulary (`render_order` is the `enumerate` index). -/
def init_db (db : DB) : Except String DB :=
  (execSchema db).map (fun db1 =>
    let db2 := ANIMATIONS.foldl (fun d p => insertAnimIgnore d p.1 p.2.1 p.2.2) db1
    (LAYER_ORDER.enum).foldl (fun d p => insertLayerIgnore d p.2 (Int.ofNat p.1)) db2)

/-- First keyword of `vocab` that occurs as a substring of the lowercased
`name` — the loop body shared by `find_layer` and the inline animation
search `next((a for a in anim_ids if a in rel_path.lower()), None)`. -/
def firstSubstrMatch (vocab : List String) (name : String) : Option String :=
  match vocab with
  | [] => none
  | k :: rest =>
      if strContains (asciiLower name) k then some k
      else firstSubstrMatch rest name

/-- `find_layer`. -/
def find_layer (name : String) : Option String := firstSubstrMatch LAYER_ORDER name

/-! ## `gen.py`: the catalog writer `scan_assets` -/

/-- An element of `asset_entries`: `(asset_name, layer_id, rel_path)`. -/
abbrev AssetEntry : Type := String × Nat × String

/-- An element of `animation_entries`: `(asset_name, rel_path, anim_id)`. -/
abbrev AnimEntry : Type := String × String × Nat

/-- The dict `{name: id}` built from `SELECT id, name FROM layers` — a later
row with the same name would overwrite an earlier one. -/
def layerIdOf (db : DB) (name : String) : Option Nat :=
  (db.layers.reverse.find? (fun r => r.name == name)).map (fun r => r.id)

/-- Key order of the `anim_ids` dict (`animations.name` is UNIQUE, so row
order is key order). -/
def animNames (db : DB) : List String := db.animations.map (fun r => r.name)

/-- The dict `{name: id}` built from `SELECT id, name FROM animations`. -/
def animIdOf (db : DB) (name : String) : Option Nat :=
  (db.animations.reverse.find? (fun r => r.name == name)).map (fun r => r.id)

/-- Accumulator of the scanning loop: `asset_entries`, `animation_entries`,
`asset_cache`. -/
structure ScanState where
  assetEntries : List AssetEntry
  animEntries : List AnimEntry
  assetCache : List (String × String)

/-- The body of the scanning loop for one walked file.  Files not ending in
`.png` are skipped; the animation is the first `anim_ids` key occurring in
the lowercased relative path and the layer is `find_layer`; files missing
either are dropped; `layer_ids[layer]` / `anim_ids[animation]` raise
`KeyError` when absent from the cached dicts. -/
def stepFile (db : DB) (st : ScanState) (relPath : String) :
    Except String ScanState :=
  let file := lastComponent relPath
  if !strEnds file ".png" then Except.ok st
  else
    let asset_name := splitextStem file
    match firstSubstrMatch (animNames db) relPath, find_layer relPath with
    | some a, some l =>
        match layerIdOf db l, animIdOf db a with
        | some lid, some aid =>
            let key := (asset_name, relPath)
            let st1 :=
              if st.assetCache.any (fun q => q.1 == key.1 && q.2 == key.2) then st
              else ⟨st.assetEntries ++ [(asset_name, lid, relPath)],
                    st.animEntries, st.assetCache ++ [key]⟩
            Except.ok ⟨st1.assetEntries,
                       st1.animEntries ++ [(asset_name, relPath, aid)],
                       st1.assetCache⟩
        | none, _ => Except.error "KeyError: layer"
        | _, none => Except.error "KeyError: animation"
    | _, _ => Except.ok st

/-- The whole scanning loop over the walked files. -/
def collectGo (db : DB) : List String → ScanState →
    Except String (List AssetEntry × List AnimEntry)
  | [], st => Except.ok (st.assetEntries, st.animEntries)
  | f :: rest, st => (stepFile db st f).bind (collectGo db rest)

/-- Phase 1 of `scan_assets`: walk the tree and accumulate the two entry
lists (the layer/animation id dicts are cached from `db` up front). -/
def collectEntries (db : DB) (files : List String) :
    Except String (List AssetEntry × List AnimEntry) :=
  collectGo db files ⟨[], [], []⟩

/-- Transaction 1: `INSERT OR IGNORE INTO assets (name, layer_id,
file_path)` for each entry.  The `assets` table declares no UNIQUE
constraint besides the integer primary key, so `OR IGNORE` never fires and
every entry appends a fresh row; `gender` is not supplied and takes the
schema default `'unisex'`. -/
def insertAssets (db : DB) (ae : List AssetEntry) : DB :=
  ae.foldl (fun d e =>
    { d with assets :=
        d.assets ++ [⟨maxId AssetRow.id d.assets + 1, e.1, e.2.1, "unisex", e.2.2⟩] }) db

/-- The read-back dict `{(name, file_path): id}` built from
`SELECT id, name, file_path FROM assets` after transaction 1 commits —
a later row with the same key overwrites an earlier one. -/
def assetIdLookup (db : DB) (name path : String) : Option Nat :=
  (db.assets.reverse.find? (fun r => r.name == name && r.file_path == path)).map
    (fun r => r.id)

/-- `INSERT OR IGNORE INTO asset_animations`: primary key
`(asset_id, animation_id)` gives insert-if-absent on that pair. -/
def insertLinkIgnore (db : DB) (aid anim : Nat) (tmpl : String) : DB :=
  if db.asset_animations.any (fun l => l.asset_id == aid && l.animation_id == anim)
  then db
  else { db with asset_animations := db.asset_animations ++ [⟨aid, anim, tmpl⟩] }

/-- Transaction 2: for each animation entry, look its `(name, path)` up in
the read-back map `m`; a missing key (`None`, falsy) — or a zero id, also
falsy in Python — inserts nothing. -/
def insertLinks (db : DB) (m : String → String → Option Nat)
    (ane : List AnimEntry) : DB :=
  ane.foldl (fun d e =>
    match m e.1 e.2.1 with
    | some aid => if aid ≠ 0 then insertLinkIgnore d aid e.2.2 e.2.1 else d
    | none => d) db

/-- `scan_assets`: collect entries in memory, commit all asset inserts
(transaction 1), re-read the committed `assets` table into the id map, then
insert the animation links (transaction 2). -/
def scan_assets (db : DB) (files : List String) : Except String DB :=
  (collectEntries db files).map (fun p =>
    let db1 := insertAssets db p.1
    insertLinks db1 (assetIdLookup db1) p.2)

/-- `main`: `init_db` then `scan_assets`. -/
def pipeline (db : DB) (files : List String) : Except String DB :=
  (init_db db).bind (fun d => scan_assets d files)

/-! ## Fixtures and spec-side helpers for the claim statements -/

/-- "keyword occurs as a case-insensitive substring anywhere in the path"
(spec §4.2), stated with both sides lowered. -/
def occursCI (k path : String) : Bool :=
  chInfixOf (asciiLower k).data (asciiLower path).data

/-- `render_order` of the layer row named `n`, if such a row exists. -/
def lookupRender (db : DB) (n : String) : Option Int :=
  (db.layers.find? (fun r => r.name == n)).map (fun r => r.render_order)

/-- A one-image input tree: `spritesheets/torso/walk/leather.png`. -/
def files1 : List String := ["torso/walk/leather.png"]

/-- The catalog produced by a first successful `init_db` on a fresh file:
both vocabularies seeded, `draw_order` NULL everywhere (the `UPDATE` ran
while `layers` was still empty). -/
def db0X : DB :=
  ⟨true, true,
   [⟨1, "walk", 4, 9⟩, ⟨2, "thrust", 4, 8⟩, ⟨3, "shoot", 4, 13⟩,
    ⟨4, "cast", 4, 7⟩, ⟨5, "slash", 4, 6⟩, ⟨6, "spellcast", 4, 7⟩,
    ⟨7, "hurt", 1, 6⟩],
   [⟨1, "body", 0, none⟩, ⟨2, "feet", 1, none⟩, ⟨3, "legs", 2, none⟩,
    ⟨4, "torso", 3, none⟩, ⟨5, "head", 4, none⟩, ⟨6, "hair", 5, none⟩,
    ⟨7, "helmet", 6, none⟩, ⟨8, "cloak", 7, none⟩, ⟨9, "weapon", 8, none⟩,
    ⟨10, "shield", 9, none⟩],
   [], []⟩

/-- The catalog after `init_db` and one `scan_assets` over `files1`:
`leather.png` classifies as layer `torso` (layer_id 4) and animation
`walk` (animation id 1). -/
def db1X : DB :=
  ⟨true, true, db0X.animations, db0X.layers,
   [⟨1, "leather", 4, "unisex", "torso/walk/leather.png"⟩],
   [⟨1, 1, "torso/walk/leather.png"⟩]⟩

/-- The four records of spec example scenario 2. -/
def hatRecords : List Entry :=
  [⟨Json.str "hat", "male", "red", Json.num 5, "hats/male/red"⟩,
   ⟨Json.str "hat", "male", "blue", Json.num 5, "hats/male/blue"⟩,
   ⟨Json.str "hat", "female", "red", Json.num 5, "hats/female/red"⟩,
   ⟨Json.str "hat", "female", "blue", Json.num 5, "hats/female/blue"⟩]

/-- A definition tree with layers and variants but no `type_name` key. -/
def noTypeNameDef : List (String × Json) :=
  [("variants", Json.arr [Json.str "red"]),
   ("layer_hat", Json.obj [("zPos", Json.num 5), ("male", Json.str "hats/male")])]

/-- The per-entry body of the link-insert loop of `insertLinks`, named for
reasoning: `insertLinks db m (e :: rest) = insertLinks (linkStep db m e) m
rest` holds by definition. -/
def linkStep (db : DB) (m : String → String → Option Nat) (e : AnimEntry) : DB :=
  match m e.1 e.2.1 with
  | some aid => if aid ≠ 0 then insertLinkIgnore db aid e.2.2 e.2.1 else db
  | none => db

/-! ## Helper lemmas -/

theorem stepFile_drop (db : DB) (st : ScanState) (relPath : String)
    (h : firstSubstrMatch (animNames db) relPath = none ∨ find_layer relPath = none) :
    stepFile db st relPath = Except.ok st := by
  unfold stepFile
  by_cases hp : strEnds (lastComponent relPath) ".png"
  · simp only [hp, Bool.not_true, if_neg]
    rcases ha : firstSubstrMatch (animNames db) relPath with _ | a <;>
      rcases hl : find_layer relPath with _ | l <;>
        simp_all
  · simp [hp]

theorem insertAssets_layers (ae : List AssetEntry) (db : DB) :
    (insertAssets db ae).layers = db.layers := by
  induction ae generalizing db with
  | nil => rfl
  | cons e rest ih => exact ih _

theorem insertAssets_links (ae : List AssetEntry) (db : DB) :
    (insertAssets db ae).asset_animations = db.asset_animations := by
  induction ae generalizing db with
  | nil => rfl
  | cons e rest ih => exact ih _

theorem insertLinkIgnore_layers (db : DB) (aid anim : Nat) (tmpl : String) :
    (insertLinkIgnore db aid anim tmpl).layers = db.layers := by
  unfold insertLinkIgnore; split <;> rfl

theorem insertLinks_layers (ane : List AnimEntry) (db : DB)
    (m : String → String → Option Nat) :
    (insertLinks db m ane).layers = db.layers := by
  induction ane generalizing db with
  | nil => rfl
  | cons e rest ih =>
      refine Eq.trans (ih (match m e.1 e.2.1 with
        | some aid => if aid ≠ 0 then insertLinkIgnore db aid e.2.2 e.2.1 else db
        | none => db)) ?_
      rcases hm : m e.1 e.2.1 with _ | aid
      · simp [hm]
      · by_cases hz : aid ≠ 0 <;> simp [hm, hz, insertLinkIgnore_layers]

theorem scan_layers (db : DB) (files : List String) (db' : DB)
    (h : scan_assets db files = Except.ok db') : db'.layers = db.layers := by
  unfold scan_assets at h
  rcases hc : collectEntries db files with e | p
  · rw [hc] at h; exact absurd h (by simp [Except.map])
  · rw [hc] at h
    simp only [Except.map] at h
    cases h
    rw [insertLinks_layers, insertAssets_layers]

/-! ## Claim theorems -/

/-- C1.  The full pipeline (`init_db` then `scan_assets`) is not idempotent,
refuting the claim: over the one-file tree `files1` the first run catalogs
one asset, but a second run does not reproduce the same catalog — it raises
`sqlite3.OperationalError` (the unconditional `ALTER TABLE layers ADD COLUMN
draw_order` of the schema script) before scanning; and even the scan step by
itself, repeated over the unchanged tree, inserts a second asset row rather
than zero additional rows, because the `assets` table declares no UNIQUE key
on `(name, file_path)` for `INSERT OR IGNORE` to fire on. -/
theorem c1_pipeline_not_idempotent :
    ((pipeline emptyDB files1).map (fun d => d.assets.length) = Except.ok 1)
    ∧ ((pipeline emptyDB files1).bind (fun d => pipeline d files1) =
        Except.error "duplicate column name: draw_order")
    ∧ (((pipeline emptyDB files1).bind (fun d => scan_assets d files1)).map
        (fun d => d.assets.map (fun r => (r.id, r.name, r.file_path))) =
        Except.ok [(1, "leather", "torso/walk/leather.png"),
                   (2, "leather", "torso/walk/leather.png")]) :=
  ⟨rfl, rfl, rfl⟩

/-- C2.  Schema creation is not safe to re-invoke: on any store whose
`layers` table already carries the `draw_order` column (as every store
produced by a previous `init_db` does), `init_db` raises the duplicate
column error from its unconditional `ALTER TABLE`, refuting the claim that
it raises no error when the tables already exist. -/
theorem c2_init_db_raises_on_existing_schema :
    ∀ db : DB, db.drawOrderColExists = true →
      init_db db = Except.error "duplicate column name: draw_order" := by
  intro db h
  unfold init_db execSchema
  simp [h, Except.map]

theorem c2_init_db_raises_on_existing_schema_witness :
    init_db db0X = Except.error "duplicate column name: draw_order" :=
  c2_init_db_raises_on_existing_schema db0X rfl

/-- C3.  The same physical file is cataloged twice across two scans: after
`init_db` and two `scan_assets` passes over the unchanged one-file tree, the
`assets` table holds two distinct rows (ids 1 and 2) with identical
`(name, file_path)`, refuting uniqueness.  The schema has no UNIQUE
constraint on `(name, file_path)` and the in-memory `asset_cache` is
rebuilt empty on every run, so nothing dedupes across runs. -/
theorem c3_same_file_cataloged_twice :
    (((init_db emptyDB).bind (fun d => scan_assets d files1)).bind
        (fun d => scan_assets d files1)).map
      (fun d => d.assets.map (fun r => (r.id, r.name, r.file_path))) =
    Except.ok [(1, "leather", "torso/walk/leather.png"),
               (2, "leather", "torso/walk/leather.png")] :=
  rfl

/-- C10.  Every asset row the scanner inserts has gender `'unisex'`: the
`INSERT` names only `(name, layer_id, file_path)`, so the schema default
applies; concretely, a path containing `male` still yields a `'unisex'`
row. -/
theorem c10_assets_default_unisex :
    (∀ (db : DB) (ae : List AssetEntry) (r : AssetRow),
        r ∈ (insertAssets db ae).assets → r ∈ db.assets ∨ r.gender = "unisex")
    ∧ (pipeline emptyDB ["male/torso/walk/leather.png"]).map
        (fun d => d.assets.map (fun r => r.gender)) = Except.ok ["unisex"] := by
  constructor
  · intro db ae
    induction ae generalizing db with
    | nil => intro r hr; exact Or.inl hr
    | cons e rest ih =>
        intro r hr
        have step := ih (DB.mk db.tablesExist db.drawOrderColExists db.animations
          db.layers (db.assets ++ [⟨maxId AssetRow.id db.assets + 1, e.1, e.2.1,
            "unisex", e.2.2⟩]) db.asset_animations) r
        rcases step hr with hmem | hg
        · simp only [List.mem_append, List.mem_singleton] at hmem
          rcases hmem with hmem | hrow
          · exact Or.inl hmem
          · exact Or.inr (by rw [hrow])
        · exact Or.inr hg
  · rfl

theorem c10_assets_default_unisex_witness :
    (⟨1, "a", 3, "unisex", "p"⟩ : AssetRow) ∈ emptyDB.assets ∨
      (⟨1, "a", 3, "unisex", "p"⟩ : AssetRow).gender = "unisex" :=
  c10_assets_default_unisex.1 emptyDB [("a", 3, "p")] _ (by decide)

theorem insertLinks_cons (db : DB) (m : String → String → Option Nat)
    (e : AnimEntry) (rest : List AnimEntry) :
    insertLinks db m (e :: rest) = insertLinks (linkStep db m e) m rest := rfl

theorem linkStep_mem (db : DB) (m : String → String → Option Nat)
    (e : AnimEntry) (l : LinkRow)
    (h : l ∈ (linkStep db m e).asset_animations) :
    l ∈ db.asset_animations ∨
      (m e.1 e.2.1 = some l.asset_id ∧ l.animation_id = e.2.2 ∧
        l.frame_path_template = e.2.1) := by
  unfold linkStep at h
  split at h
  · rename_i aid hm
    split at h
    · unfold insertLinkIgnore at h
      split at h
      · exact Or.inl h
      · have h2 : l ∈ db.asset_animations ++ [(⟨aid, e.2.2, e.2.1⟩ : LinkRow)] := h
        rcases List.mem_append.mp h2 with h3 | h3
        · exact Or.inl h3
        · rw [List.mem_singleton] at h3
          subst h3
          exact Or.inr ⟨hm, rfl, rfl⟩
    · exact Or.inl h
  · exact Or.inl h

/-- C6.  Animation links are written only from the read-back map of the
committed asset state: (1) every row produced by the link phase either
pre-existed or carries an `asset_id` obtained from the read-back map at its
entry's `(name, file_path)` key; (2) entries missing from the map insert
nothing; (3) `scan_assets` has exactly the shape "commit all asset inserts,
re-read the `assets` table keyed by `(name, file_path)`, then insert
links". -/
theorem c6_links_after_commit_via_readback :
    (∀ (db : DB) (m : String → String → Option Nat) (ane : List AnimEntry)
        (l : LinkRow), l ∈ (insertLinks db m ane).asset_animations →
        l ∈ db.asset_animations ∨
          ∃ e, e ∈ ane ∧ m e.1 e.2.1 = some l.asset_id ∧
            l.animation_id = e.2.2 ∧ l.frame_path_template = e.2.1)
    ∧ (∀ (db : DB) (m : String → String → Option Nat) (ane : List AnimEntry),
        insertLinks db m ane =
          insertLinks db m (ane.filter (fun e => (m e.1 e.2.1).isSome)))
    ∧ (∀ (db : DB) (files : List String) (db' : DB),
        scan_assets db files = Except.ok db' →
        ∃ ae ane, collectEntries db files = Except.ok (ae, ane) ∧
          db' = insertLinks (insertAssets db ae)
                  (assetIdLookup (insertAssets db ae)) ane) := by
  refine ⟨?_, ?_, ?_⟩
  · intro db m ane
    induction ane generalizing db with
    | nil => intro l h; exact Or.inl h
    | cons e rest ih =>
        intro l h
        rw [insertLinks_cons] at h
        rcases ih (linkStep db m e) l h with h1 | ⟨e', he', hm', h2, h3⟩
        · rcases linkStep_mem db m e l h1 with h2 | ⟨hm, ha, hf⟩
          · exact Or.inl h2
          · exact Or.inr ⟨e, List.mem_cons_self e rest, hm, ha, hf⟩
        · exact Or.inr ⟨e', List.mem_cons_of_mem e he', hm', h2, h3⟩
  · intro db m ane
    induction ane generalizing db with
    | nil => rfl
    | cons e rest ih =>
        rcases hm : m e.1 e.2.1 with _ | aid
        · have hfilter : (e :: rest).filter (fun e => (m e.1 e.2.1).isSome) =
              rest.filter (fun e => (m e.1 e.2.1).isSome) := by
            rw [List.filter_cons]
            simp [hm]
          have hls : linkStep db m e = db := by unfold linkStep; rw [hm]
          rw [hfilter, insertLinks_cons, hls]
          exact ih db
        · have hfilter : (e :: rest).filter (fun e => (m e.1 e.2.1).isSome) =
              e :: rest.filter (fun e => (m e.1 e.2.1).isSome) := by
            rw [List.filter_cons]
            simp [hm]
          rw [hfilter, insertLinks_cons db m e rest,
            insertLinks_cons db m e (rest.filter (fun e => (m e.1 e.2.1).isSome))]
          exact ih (linkStep db m e)
  · intro db files db' h
    unfold scan_assets at h
    rcases hc : collectEntries db files with err | ⟨ae, ane⟩
    · rw [hc] at h
      exact absurd h (by simp [Except.map])
    · rw [hc] at h
      simp only [Except.map] at h
      injection h with h
      exact ⟨ae, ane, rfl, h.symm⟩

theorem c6_links_after_commit_via_readback_witness :
    ∃ ae ane, collectEntries db0X files1 = Except.ok (ae, ane) ∧
      db1X = insertLinks (insertAssets db0X ae)
              (assetIdLookup (insertAssets db0X ae)) ane :=
  c6_links_after_commit_via_readback.2.2 db0X files1 db1X rfl

/-- C9.  A scanned file is cataloged only when both vocabularies match its
path: if the animation search or the layer search (or both) returns `None`,
the file contributes no asset entry and no animation entry, without error;
concretely, a layer-only path, an animation-only path and a
neither-matching path together produce an empty catalog. -/
theorem c9_drop_unless_both_vocabularies :
    (∀ (db : DB) (relPath : String),
        firstSubstrMatch (animNames db) relPath = none ∨ find_layer relPath = none →
        collectEntries db [relPath] = Except.ok ([], []))
    ∧ ((init_db emptyDB).bind (fun d => scan_assets d
          ["torso/idle.png", "misc/walk.png", "misc/idle.png"])).map
        (fun d => (d.assets.length, d.asset_animations.length)) =
        Except.ok (0, 0) := by
  constructor
  · intro db relPath h
    have h1 : collectEntries db [relPath] =
        (stepFile db ⟨[], [], []⟩ relPath).bind (collectGo db []) := rfl
    rw [h1, stepFile_drop db ⟨[], [], []⟩ relPath h]
    rfl
  · rfl

theorem c9_drop_unless_both_vocabularies_witness :
    collectEntries db0X ["torso/idle.png"] = Except.ok ([], []) :=
  c9_drop_unless_both_vocabularies.1 db0X "torso/idle.png" (Or.inl rfl)

/-- C7.  Render order follows the configured vocabulary: `init_db` seeds
exactly one `layers` row per `LAYER_ORDER` name with `render_order` equal to
its list position (hence strictly increasing along the list), every layer
row is named by the vocabulary, and `scan_assets` never adds or changes
layer rows — so no catalog layer ever carries an order value for a name
outside the configured list. -/
theorem c7_render_order_follows_vocabulary :
    (init_db emptyDB = Except.ok db0X)
    ∧ (∀ db0 : DB, init_db emptyDB = Except.ok db0 →
        ∀ i j : Fin LAYER_ORDER.length, i.val < j.val →
          (lookupRender db0 (LAYER_ORDER.get i)).isSome = true ∧
          (lookupRender db0 (LAYER_ORDER.get j)).isSome = true ∧
          (lookupRender db0 (LAYER_ORDER.get i)).getD 0 <
            (lookupRender db0 (LAYER_ORDER.get j)).getD 0)
    ∧ (∀ db0 : DB, init_db emptyDB = Except.ok db0 →
        ∀ r ∈ db0.layers, r.name ∈ LAYER_ORDER)
    ∧ (∀ (db : DB) (files : List String) (db' : DB),
        scan_assets db files = Except.ok db' → db'.layers = db.layers) := by
  refine ⟨rfl, ?_, ?_, scan_layers⟩
  · intro db0 h
    have h2 : (Except.ok db0X : Except String DB) = Except.ok db0 := h ▸ rfl
    injection h2 with h3
    rw [← h3]
    decide
  · intro db0 h
    have h2 : (Except.ok db0X : Except String DB) = Except.ok db0 := h ▸ rfl
    injection h2 with h3
    rw [← h3]
    decide

theorem c7_render_order_follows_vocabulary_witness :
    (lookupRender db0X (LAYER_ORDER.get ⟨0, by decide⟩)).isSome = true ∧
    (lookupRender db0X (LAYER_ORDER.get ⟨1, by decide⟩)).isSome = true ∧
    (lookupRender db0X (LAYER_ORDER.get ⟨0, by decide⟩)).getD 0 <
      (lookupRender db0X (LAYER_ORDER.get ⟨1, by decide⟩)).getD 0 :=
  c7_render_order_follows_vocabulary.2.1 db0X rfl ⟨0, by decide⟩ ⟨1, by decide⟩
    (by decide)

theorem occursCI_of_lower (k path : String) (h : asciiLower k = k) :
    occursCI k path = strContains (asciiLower path) k := by
  unfold occursCI strContains
  rw [h]

/-- C5.  The path classifier is first-match-wins over the ordered
vocabulary: for a vocabulary of lowercase keywords, a `some l` result means
the vocabulary splits as `pre ++ l :: post` with `l` occurring
case-insensitively in the path and every earlier keyword not occurring; the
result is `None` exactly when no keyword occurs.  Concretely, against the
seeded catalog, `male/torso/walk/leather.png` classifies as layer `torso`
and animation `walk`. -/
theorem c5_classifier_first_match :
    (∀ (vocab : List String) (path l : String),
        (∀ k ∈ vocab, asciiLower k = k) →
        firstSubstrMatch vocab path = some l →
        ∃ pre post, vocab = pre ++ l :: post ∧ occursCI l path = true ∧
          ∀ k ∈ pre, occursCI k path = false)
    ∧ (∀ (vocab : List String) (path : String),
        (∀ k ∈ vocab, asciiLower k = k) →
        (firstSubstrMatch vocab path = none ↔
          ∀ k ∈ vocab, occursCI k path = false))
    ∧ (init_db emptyDB).map
        (fun d => (find_layer "male/torso/walk/leather.png",
                   firstSubstrMatch (animNames d) "male/torso/walk/leather.png")) =
        Except.ok (some "torso", some "walk") := by
  refine ⟨?_, ?_, rfl⟩
  · intro vocab
    induction vocab with
    | nil =>
        intro path l h hf
        exact absurd hf (by simp [firstSubstrMatch])
    | cons k rest ih =>
        intro path l h hf
        unfold firstSubstrMatch at hf
        by_cases hc : strContains (asciiLower path) k = true
        · rw [if_pos hc] at hf
          injection hf with hf
          refine ⟨[], rest, by rw [hf]; rfl, ?_, by simp⟩
          rw [← hf, occursCI_of_lower _ _ (h k (List.mem_cons_self k rest))]
          exact hc
        · rw [if_neg hc] at hf
          obtain ⟨pre, post, hsplit, hocc, hpre⟩ :=
            ih path l (fun k' hk' => h k' (List.mem_cons_of_mem k hk')) hf
          refine ⟨k :: pre, post, by rw [hsplit, List.cons_append], hocc, ?_⟩
          intro k' hk'
          rcases List.mem_cons.mp hk' with hk' | hk'
          · subst hk'
            rw [occursCI_of_lower _ _ (h k' (List.mem_cons_self k' rest))]
            exact Bool.of_not_eq_true hc
          · exact hpre k' hk'
  · intro vocab
    induction vocab with
    | nil =>
        intro path h
        simp [firstSubstrMatch]
    | cons k rest ih =>
        intro path h
        unfold firstSubstrMatch
        by_cases hc : strContains (asciiLower path) k = true
        · rw [if_pos hc]
          constructor
          · intro hf; exact absurd hf (by simp)
          · intro hall
            have := hall k (List.mem_cons_self k rest)
            rw [occursCI_of_lower _ _ (h k (List.mem_cons_self k rest))] at this
            rw [hc] at this
            exact absurd this (by simp)
        · rw [if_neg hc]
          rw [ih path (fun k' hk' => h k' (List.mem_cons_of_mem k hk'))]
          constructor
          · intro hall k' hk'
            rcases List.mem_cons.mp hk' with hk' | hk'
            · subst hk'
              rw [occursCI_of_lower _ _ (h k' (List.mem_cons_self k' rest))]
              exact Bool.of_not_eq_true hc
            · exact hall k' hk'
          · intro hall k' hk'
            exact hall k' (List.mem_cons_of_mem k hk')

theorem c5_classifier_first_match_witness :
    ∃ pre post, LAYER_ORDER = pre ++ "torso" :: post ∧
      occursCI "torso" "male/torso/walk/leather.png" = true ∧
      ∀ k ∈ pre, occursCI k "male/torso/walk/leather.png" = false :=
  c5_classifier_first_match.1 LAYER_ORDER "male/torso/walk/leather.png" "torso"
    (by decide) rfl

theorem strListOpt_eq : ∀ (xs : List Json) (vs : List String),
    strListOpt xs = some vs → xs = vs.map Json.str := by
  intro xs
  induction xs with
  | nil =>
      intro vs h
      simp only [strListOpt] at h
      injection h with h
      rw [← h]
      rfl
  | cons x rest ih =>
      intro vs h
      cases x with
      | str s =>
          simp only [strListOpt] at h
          rcases hr : strListOpt rest with _ | vs'
          · rw [hr] at h; simp at h
          · rw [hr] at h
            simp only [Option.map_some'] at h
            injection h with h
            rw [← h, List.map_cons, ← ih vs' hr]
      | null => simp only [strListOpt] at h; exact absurd h (by simp)
      | bool b => simp only [strListOpt] at h; exact absurd h (by simp)
      | num n => simp only [strListOpt] at h; exact absurd h (by simp)
      | arr xs2 => simp only [strListOpt] at h; exact absurd h (by simp)
      | obj kvs2 => simp only [strListOpt] at h; exact absurd h (by simp)

theorem effVariantsJ_of_spec (kvs : List (String × Json)) (vs : List String)
    (h : specEffVariants kvs = some vs) :
    effVariantsJ kvs = Json.arr (vs.map Json.str) := by
  simp only [specEffVariants, effVariantsJ] at *
  by_cases ht : pyTruthy (pyGetD kvs "variants" (Json.arr [])) = true
  · rw [if_pos ht] at h ⊢
    rcases hv : pyGetD kvs "variants" (Json.arr []) with _ | _ | _ | _ | xs | _ <;>
      rw [hv] at h <;> simp only [jsonStrList] at h
    · exact absurd h (by simp)
    · exact absurd h (by simp)
    · exact absurd h (by simp)
    · exact absurd h (by simp)
    · rw [← strListOpt_eq xs vs h]
    · exact absurd h (by simp)
  · rw [if_neg ht] at h ⊢
    injection h with h
    rw [← h]
    rfl

theorem ebind_ok {a : Type} {b : Type} (x : a) (f : a → Except String b) :
    (Except.ok x : Except String a) >>= f = f x := rfl

theorem variantLoop_strs (tn : Json) (g : String) (z : Json) (p : String) :
    ∀ vs : List String,
      variantLoop tn g z p (vs.map Json.str) =
        Except.ok (vs.map (fun v => ⟨tn, g, v, z, normSlash (pathJoin p v)⟩)) := by
  intro vs
  induction vs with
  | nil => rfl
  | cons v rest ih =>
      simp only [List.map_cons, variantLoop, mkEntry]
      rw [ih]
      rfl

theorem genderLoop_spec (tn : Json) (z : Json) (vs : List String) :
    ∀ l : List (String × Json),
      genderLoop tn (Json.arr (vs.map Json.str)) z l =
        Except.ok ((l.filter (fun g => !(g.1 == "zPos" || !g.2.isStr))).flatMap
          (fun g => vs.map (fun v =>
            ⟨tn, g.1, v, z, normSlash (pathJoin g.2.asStr v)⟩))) := by
  intro l
  induction l with
  | nil => rfl
  | cons gp rest ih =>
      obtain ⟨gender, pj⟩ := gp
      by_cases hskip : (gender == "zPos" || !pj.isStr) = true
      · simp only [genderLoop, hskip, if_true, List.filter_cons, Bool.not_true]
        rw [ih]
        simp
      · have hskip' : (gender == "zPos" || !pj.isStr) = false :=
          Bool.of_not_eq_true hskip
        simp only [genderLoop, hskip', if_false, Bool.false_eq_true,
          List.filter_cons, Bool.not_false]
        simp only [pyIterVariants]
        rw [ebind_ok, variantLoop_strs, ebind_ok, ih, ebind_ok]
        simp

theorem layerLoop_spec (tn : Json) (vs : List String) :
    ∀ l : List (String × Json),
      layerLoop tn (Json.arr (vs.map Json.str)) l =
        Except.ok ((l.filter (fun p => strStarts p.1 "layer_" && p.2.isObj)).flatMap
          (fun p => ((p.2.asObj).filter (fun g => !(g.1 == "zPos" || !g.2.isStr))).flatMap
            (fun g => vs.map (fun v =>
              ⟨tn, g.1, v, pyGetD p.2.asObj "zPos" (Json.num 0),
                normSlash (pathJoin g.2.asStr v)⟩)))) := by
  intro l
  induction l with
  | nil => rfl
  | cons kv rest ih =>
      obtain ⟨key, val⟩ := kv
      by_cases hl : (strStarts key "layer_" && val.isObj) = true
      · simp only [layerLoop, hl, if_true, List.filter_cons]
        rw [genderLoop_spec, ebind_ok, ih, ebind_ok]
        try simp [hl]
      · have hl' : (strStarts key "layer_" && val.isObj) = false :=
          Bool.of_not_eq_true hl
        simp only [layerLoop, hl', if_false, Bool.false_eq_true, List.filter_cons]
        rw [ih]
        try simp [hl']

/-- C4.  The normalizer emits exactly the spec's flat enumeration: for every
definition tree with a truthy `type_name` and a well-formed variants value
(absent/falsy, or a list of strings), the output is one record per
`(layer_* key, non-zPos string-valued gender key, variant)` triple in
iteration order — `specRecords` enumerates exactly those triples, with
`z_index` the layer's `zPos` (default 0) and `path` the gender path joined
with the variant; the effective variant list defaults to `["default"]` when
the key is absent or its list is empty.  The hat tree of spec scenario 2
yields exactly the four listed records. -/
theorem c4_normalizer_one_record_per_triple :
    (∀ (kvs : List (String × Json)) (vs : List String),
        pyTruthy (pyGet kvs "type_name") = true →
        specEffVariants kvs = some vs →
        parseDefFile kvs = Except.ok (specRecords kvs vs))
    ∧ parseDefFile hatDef = Except.ok hatRecords := by
  constructor
  · intro kvs vs ht hv
    simp only [parseDefFile, ht, if_true]
    rw [effVariantsJ_of_spec kvs vs hv, layerLoop_spec]
    rfl
  · rfl

theorem c4_normalizer_one_record_per_triple_witness :
    parseDefFile hatDef = Except.ok (specRecords hatDef ["red", "blue"]) :=
  c4_normalizer_one_record_per_triple.1 hatDef ["red", "blue"] rfl rfl

theorem pyGet_absent (kvs : List (String × Json)) (k : String)
    (h : ∀ p ∈ kvs, (p.1 == k) = false) : pyGet kvs k = Json.null := by
  unfold pyGet
  rw [List.find?_eq_none.mpr (fun p hp => by rw [h p hp]; exact Bool.false_ne_true)]

/-- C8.  A definition tree lacking the `type_name` key yields zero records
and no error, and the directory walk continues: prepending such a file to
any listing leaves the overall result unchanged. -/
theorem c8_missing_type_name_skipped :
    ∀ (kvs : List (String × Json)) (rest : List (Option (List (String × Json)))),
      (∀ p ∈ kvs, (p.1 == "type_name") = false) →
      parseDefFile kvs = Except.ok [] ∧
        parse_json_definitions (some kvs :: rest) = parse_json_definitions rest := by
  intro kvs rest h
  have h1 : parseDefFile kvs = Except.ok [] := by
    simp only [parseDefFile, pyGet_absent kvs "type_name" h, pyTruthy,
      Bool.false_eq_true, if_false]
  refine ⟨h1, ?_⟩
  simp only [parse_json_definitions, h1, ebind_ok]
  rcases hr : parse_json_definitions rest with e | es
  · rfl
  · rw [ebind_ok]
    simp

theorem c8_missing_type_name_skipped_witness :
    parseDefFile noTypeNameDef = Except.ok [] ∧
      parse_json_definitions (some noTypeNameDef :: [some hatDef]) =
        parse_json_definitions [some hatDef] :=
  c8_missing_type_name_skipped noTypeNameDef [some hatDef] (by decide)
